import Mathlib

/-!
Verification of the JustifyAI backend services (`backend/microservice2/main.py`,
`backend/llm-auditor/main.py`) against their natural-language specification.

The Python source is shallowly embedded: pure helpers become Lean functions,
external calls (the Gemini client, PIL, the agent engine) become oracle
parameters returning `Except`/inductive outcomes, and the mutable session
dictionary becomes explicit state passing over an association list.
-/

deriving instance DecidableEq for Except

namespace JustifyAI

/-! ### Hyperlink extraction (`GeminiProcessor.extract_hyperlinks`)

The Python code runs `re.findall(r'https?://[^\s\)]+', text)` and then removes
duplicates preserving first occurrence.  We embed the regex as a left-to-right
scanner: at each position try to match the literal scheme `https://` (the
greedy `s?` branch) and otherwise `http://`, then take the maximal run of
characters that are neither whitespace nor a closing parenthesis, requiring at
least one such character.  On a failed match the scan advances one character;
on a successful match it resumes after the match, exactly like `re.findall`'s
non-overlapping leftmost semantics. -/

/-- The characters matched by Python's `\s` on `str` (`str.isspace` set). -/
def pySpaceChars : List Char :=
  [' ', '\t', '\n', '\r', Char.ofNat 0x0b, Char.ofNat 0x0c,
   Char.ofNat 0x1c, Char.ofNat 0x1d, Char.ofNat 0x1e, Char.ofNat 0x1f,
   Char.ofNat 0x85, Char.ofNat 0xa0, Char.ofNat 0x1680,
   Char.ofNat 0x2000, Char.ofNat 0x2001, Char.ofNat 0x2002, Char.ofNat 0x2003,
   Char.ofNat 0x2004, Char.ofNat 0x2005, Char.ofNat 0x2006, Char.ofNat 0x2007,
   Char.ofNat 0x2008, Char.ofNat 0x2009, Char.ofNat 0x200a,
   Char.ofNat 0x2028, Char.ofNat 0x2029, Char.ofNat 0x202f,
   Char.ofNat 0x205f, Char.ofNat 0x3000]

def isPySpace (c : Char) : Bool := pySpaceChars.contains c

/-- A character admissible in the body of a URL match: `[^\s\)]`. -/
def isUrlChar (c : Char) : Bool := !isPySpace c && c ≠ ')'

/-- Match a literal list of characters at the head of the input, returning the
remaining input on success. -/
def dropLit : List Char → List Char → Option (List Char)
  | [], cs => some cs
  | _ :: _, [] => none
  | l :: ls, c :: cs => if c = l then dropLit ls cs else none

def httpSchemeChars : List Char := "http://".toList

def httpsSchemeChars : List Char := "https://".toList

/-- After a scheme has matched, take the greedy nonempty run `[^\s\)]+`. -/
def finishUrl (scheme rest : List Char) : Option (List Char × List Char) :=
  let body := rest.takeWhile isUrlChar
  if body.isEmpty then none
  else some (scheme ++ body, rest.dropWhile isUrlChar)

/-- Try to match `https?://[^\s\)]+` at the current position.  The greedy
`s?` tries `https://` first, then backtracks to `http://`. -/
def matchUrlAt (cs : List Char) : Option (List Char × List Char) :=
  match dropLit httpsSchemeChars cs with
  | some rest => finishUrl httpsSchemeChars rest
  | none =>
    match dropLit httpSchemeChars cs with
    | some rest => finishUrl httpSchemeChars rest
    | none => none

/-- The `re.findall` scan.  Each step consumes at least one character, so fuel
equal to the input length makes the scan exhaustive (see
`matchUrlAt_rest_length`). -/
def findUrlsAux : Nat → List Char → List (List Char)
  | 0, _ => []
  | _ + 1, [] => []
  | fuel + 1, c :: cs =>
    match matchUrlAt (c :: cs) with
    | some (url, rest) => url :: findUrlsAux fuel rest
    | none => findUrlsAux fuel cs

/-- `re.findall(r'https?://[^\s\)]+', text)`. -/
def re_findall_urls (text : String) : List String :=
  (findUrlsAux text.toList.length text.toList).map String.mk

/-- The duplicate-removal loop of `extract_hyperlinks`:
`for url in urls: if url not in unique_urls: unique_urls.append(url)`. -/
def uniqueFirstAux (acc : List String) : List String → List String
  | [] => acc
  | u :: us => if u ∈ acc then uniqueFirstAux acc us else uniqueFirstAux (acc ++ [u]) us

/-- `GeminiProcessor.extract_hyperlinks` (main.py lines 79-99). -/
def extract_hyperlinks (text : String) : List String :=
  uniqueFirstAux [] (re_findall_urls text)

/-! ### Configuration constants (main.py lines 33-42) -/

def GEMINI_TIMEOUT : Nat := 120

def IMAGE_TIMEOUT : Nat := 60

def MAX_RETRIES : Nat := 1

def RETRY_DELAY : Nat := 2

def FAST_IMAGE_MODELS : List String := ["gemini-2.5-flash-image-preview"]

/-! ### Pydantic request/response models (main.py lines 45-60) -/

structure APIOutput where
  response : String
  session_id : String
deriving DecidableEq

structure ProcessingRequest where
  api_output : APIOutput
  generate_image : Bool
deriving DecidableEq

/-! ### Base64 (`base64.b64encode(...).decode('utf-8')`)

Standard base64 over a byte list, with `=` padding, as produced by Python's
`base64.b64encode`. -/

def b64Alphabet : List Char :=
  "ABCDEFGHIJKLMNOPQRSTUVWXYZabcdefghijklmnopqrstuvwxyz0123456789+/".toList

def b64Char (n : Nat) : Char := b64Alphabet.getD n 'A'

def b64encode : List Nat → List Char
  | [] => []
  | [b1] =>
    [b64Char (b1 / 4 % 64), b64Char (b1 % 4 * 16), '=', '=']
  | [b1, b2] =>
    [b64Char (b1 / 4 % 64), b64Char (b1 % 4 * 16 + b2 / 16 % 16), b64Char (b2 % 16 * 4), '=']
  | b1 :: b2 :: b3 :: rest =>
    b64Char (b1 / 4 % 64) :: b64Char (b1 % 4 * 16 + b2 / 16 % 16) ::
      b64Char (b2 % 16 * 4 + b3 / 64 % 4) :: b64Char (b3 % 64) :: b64encode rest

/-! ### Image generation (`GeminiProcessor.generate_image_fast`, main.py 239-340)

External effects are oracle parameters:
* `gem slot model` is the outcome of `client.models.generate_content` for the
  given slot index and model name: an exception message, or the response's
  `candidates[0].content.parts` (each part's `inline_data`, `none` for a text
  part).
* `pil_ok bytes` says whether `Image.open(BytesIO(bytes))` followed by
  `image.save(...)` succeeds; PIL raises on data that is not a decodable
  image (in particular on empty data), which the code's per-model handler
  catches, so a `pil_ok` refuting empty inputs models it.
* `now` stands for `int(time.time())`, used only inside ids and filenames.
-/

/-- One entry of `response.candidates[0].content.parts`: a text part carries
no `inline_data`; an image part carries the raw bytes. -/
inductive GenPart where
  | text (s : String)
  | inline_data (data : List Nat)
deriving DecidableEq

/-- One artifact dictionary built by `generate_image_fast`.  Keys that appear
only in one of the two dictionary shapes are `Option`-valued. -/
structure ImageData where
  id : String
  filename : String
  base64_data : String
  format : String
  size_bytes : Nat
  prompt : String
  model_used : Option String
  model_priority : Option Nat
  error : Option String
  models_tried : Option (List String)
deriving DecidableEq

/-- `for part in response.candidates[0].content.parts: if part.inline_data is
not None: ...; break` — the first part carrying inline data. -/
def findInlineData : List GenPart → Option (List Nat)
  | [] => none
  | .inline_data d :: _ => some d
  | .text _ :: rest => findInlineData rest

/-- The success filename
`outputs/images/generated_image_{now}_{i}_{model_name.replace('-','_')}.png`. -/
def successFilename (now i : Nat) (modelName : String) : String :=
  "outputs/images/generated_image_" ++ toString now ++ "_" ++ toString i ++ "_" ++
    (modelName.map (fun c => if c = '-' then '_' else c)) ++ ".png"

/-- One iteration of the model-fallback loop for slot `i` (main.py 258-303):
`some d` when the model produced an image that decoded and saved, `none` when
the attempt raised or yielded no inline data, in which case the loop
`continue`s to the next model. -/
def attemptModel (pil_ok : List Nat → Bool) (gem : Nat → String → Except String (List GenPart))
    (prompt : String) (now i modelIndex : Nat) (modelName : String) : Option ImageData :=
  match gem i modelName with
  | .error _ => none
  | .ok parts =>
    match findInlineData parts with
    | none => none
    | some bytes =>
      if pil_ok bytes then
        some
          { id := "image_" ++ toString now ++ "_" ++ toString i
            filename := successFilename now i modelName
            base64_data := String.mk (b64encode bytes)
            format := "png"
            size_bytes := bytes.length
            prompt := prompt
            model_used := some modelName
            model_priority := some (modelIndex + 1)
            error := none
            models_tried := none }
      else none

/-- `for model_index, model_name in enumerate(FAST_IMAGE_MODELS)` with early
exit on the first success. -/
def tryModelsFrom (pil_ok : List Nat → Bool) (gem : Nat → String → Except String (List GenPart))
    (prompt : String) (now i : Nat) : Nat → List String → Option ImageData
  | _, [] => none
  | idx, m :: ms =>
    match attemptModel pil_ok gem prompt now i idx m with
    | some d => some d
    | none => tryModelsFrom pil_ok gem prompt now i (idx + 1) ms

/-- The error artifact built when no model produced an image for slot `i`
(main.py 306-317). -/
def errorImageData (prompt : String) (now i : Nat) : ImageData :=
  { id := "error_image_" ++ toString now ++ "_" ++ toString i
    filename := "outputs/images/error_image_" ++ toString now ++ "_" ++ toString i ++ ".txt"
    base64_data := ""
    format := "error"
    size_bytes := 0
    prompt := prompt
    model_used := none
    model_priority := none
    error := some "All image generation models failed"
    models_tried := some FAST_IMAGE_MODELS }

/-- The single artifact appended for slot `i`: the first model success, or the
error artifact once every model failed. -/
def generateSlot (pil_ok : List Nat → Bool) (gem : Nat → String → Except String (List GenPart))
    (prompt : String) (now i : Nat) : ImageData :=
  match tryModelsFrom pil_ok gem prompt now i 0 FAST_IMAGE_MODELS with
  | some d => d
  | none => errorImageData prompt now i

/-- `GeminiProcessor.generate_image_fast` (main.py 239-340).  The Python loop
appends exactly one dictionary per slot index `i in range(num_images)`, so the
result is the per-slot artifact list in slot order. -/
def generate_image_fast (pil_ok : List Nat → Bool)
    (gem : Nat → String → Except String (List GenPart))
    (prompt : String) (now num_images : Nat) : List ImageData :=
  (List.range num_images).map (generateSlot pil_ok gem prompt now)

/-! ### Content formatting (`GeminiProcessor.generate_formatted_content`, main.py 101-135)

The Gemini client call is the oracle `callModel k prompt`: the outcome of the
`k`-th `generate_content` call of the request (an exception message, or the
response's candidate list).  The function makes exactly one call per
invocation and threads the call counter, which lets theorems observe how many
calls were made. -/

structure CandPart where
  text : String
deriving DecidableEq

structure CandContent where
  parts : List CandPart
deriving DecidableEq

structure Candidate where
  content : CandContent
deriving DecidableEq

/-- The two prompt f-strings of main.py 113-123. -/
def buildPrompt (style content : String) : String :=
  if style = "concise" then
    "Please provide a concise, well-structured summary of the following content. \n                Focus on key points and main insights. Keep it brief but informative (max 200 words):\n                \n                " ++ content
  else
    "Please provide a comprehensive, detailed analysis of the following content. \n                Include thorough explanations, examples, and insights. Structure it clearly with sections and bullet points.\n                Make it easy to read and understand:\n                \n                " ++ content

/-- `GeminiProcessor.generate_formatted_content` (main.py 101-135).  Builds the
prompt, performs a single `generate_content` call, extracts
`candidates[0].content.parts[0].text` (an `IndexError` when a list is empty),
and re-raises every exception unchanged (`except Exception as e: ...; raise`).
Returns the outcome together with the advanced call counter. -/
def generate_formatted_content (callModel : Nat → String → Except String (List Candidate))
    (k : Nat) (content : String) (style : String) : Except String String × Nat :=
  let prompt := buildPrompt style content
  (match callModel k prompt with
   | .error e => .error e
   | .ok [] => .error "IndexError: list index out of range"
   | .ok (cand :: _) =>
     match cand.content.parts with
     | [] => .error "IndexError: list index out of range"
     | p :: _ => .ok p.text,
   k + 1)

/-! ### The processing pipeline (`GeminiProcessor.process_api_output`, main.py 342-405) -/

/-- `api_output.response[:100] + "..."` — the `original_query` field. -/
def truncQuery (response : String) : String :=
  String.mk (response.toList.take 100) ++ "..."

/-- The image prompt of main.py line 369, built from the first 100 characters
of the input response. -/
def imagePromptOf (response : String) : String :=
  "Create a visual representation of: " ++ String.mk (response.toList.take 100) ++ "..."

/-- The two dictionary shapes returned by `process_api_output`: the success
record (main.py 374-387) and the error record (main.py 399-405), which carries
no formatted content, media or proof. -/
inductive ProcResult where
  | success (original_query session_id concise detailed : String)
      (images : List ImageData) (proof : List String) (processing_timestamp : Nat)
  | failure (original_query session_id error_message : String) (processing_timestamp : Nat)
deriving DecidableEq

/-- The `status` field of the result dictionary. -/
def ProcResult.status : ProcResult → String
  | .success _ _ _ _ _ _ _ => "success"
  | .failure _ _ _ _ => "error"

/-- The `generated_media["images"]` list of the result (empty on the error
shape, which has no such key). -/
def ProcResult.images : ProcResult → List ImageData
  | .success _ _ _ _ imgs _ _ => imgs
  | .failure _ _ _ _ => []

/-- Observable call events of one pipeline run, in execution order. -/
inductive Ev where
  | links
  | fmtCall (style : String)
  | imageStart
deriving DecidableEq

/-- `GeminiProcessor.process_api_output` (main.py 342-405): extract hyperlinks,
format concise then detailed (an exception in either is caught at line 397 and
turned into the error record), then, if requested, generate one image with the
prompt built from the first 100 response characters.  The second component is
the trace of calls the run performed, in order. -/
def process_api_output (callModel : Nat → String → Except String (List Candidate))
    (pil_ok : List Nat → Bool) (gem : Nat → String → Except String (List GenPart))
    (api : APIOutput) (generate_image : Bool) (now : Nat) : ProcResult × List Ev :=
  let hyperlinks := extract_hyperlinks api.response
  match (generate_formatted_content callModel 0 api.response "concise").1 with
  | .error e =>
    (.failure (truncQuery api.response) api.session_id e now, [.links, .fmtCall "concise"])
  | .ok concise_content =>
    match (generate_formatted_content callModel 1 api.response "detailed").1 with
    | .error e =>
      (.failure (truncQuery api.response) api.session_id e now,
       [.links, .fmtCall "concise", .fmtCall "detailed"])
    | .ok detailed_content =>
      let image_data_list :=
        if generate_image then
          generate_image_fast pil_ok gem (imagePromptOf api.response) now 1
        else []
      (.success (truncQuery api.response) api.session_id concise_content detailed_content
         image_data_list hyperlinks now,
       [.links, .fmtCall "concise", .fmtCall "detailed"] ++
         (if generate_image then [.imageStart] else []))

/-- The first formatter failure of a run, if any: the pipeline calls concise
(call 0) then detailed (call 1) and stops at the first exception. -/
def firstFmtError (callModel : Nat → String → Except String (List Candidate))
    (response : String) : Option String :=
  match (generate_formatted_content callModel 0 response "concise").1 with
  | .error e => some e
  | .ok _ =>
    match (generate_formatted_content callModel 1 response "detailed").1 with
    | .error e => some e
    | .ok _ => none

/-- The `POST /process` endpoint (main.py 434-461): on `status == "success"`
return the results, otherwise raise `HTTPException(500, error_message)`. -/
def process_endpoint (callModel : Nat → String → Except String (List Candidate))
    (pil_ok : List Nat → Bool) (gem : Nat → String → Except String (List GenPart))
    (request : ProcessingRequest) (now : Nat) : Except (Nat × String) ProcResult :=
  match (process_api_output callModel pil_ok gem request.api_output
          request.generate_image now).1 with
  | .failure _ _ e _ => .error (500, e)
  | r => .ok r

/-- The response dictionary of `POST /process-simple` (main.py 484-493). -/
structure SimpleResult where
  session_id : String
  concise : String
  detailed : String
  proof : List String
  processing_timestamp : Nat
  status : String
deriving DecidableEq

/-- The `POST /process-simple` endpoint (main.py 463-497): hyperlinks, then the
two formatter calls; any exception becomes `HTTPException(500, str(e))`. -/
def process_simple (callModel : Nat → String → Except String (List Candidate))
    (api : APIOutput) (now : Nat) : Except (Nat × String) SimpleResult :=
  let hyperlinks := extract_hyperlinks api.response
  match (generate_formatted_content callModel 0 api.response "concise").1 with
  | .error e => .error (500, e)
  | .ok concise_content =>
    match (generate_formatted_content callModel 1 api.response "detailed").1 with
    | .error e => .error (500, e)
    | .ok detailed_content =>
      .ok { session_id := api.session_id
            concise := concise_content
            detailed := detailed_content
            proof := hyperlinks
            processing_timestamp := now
            status := "success" }

/-! ### LLM Auditor gateway (`backend/llm-auditor/main.py`)

The module-level dictionary `user_sessions` becomes an explicit association
list threaded through the query step (Python dicts preserve insertion order,
and a fresh key is appended).  `agent_engine.create_session(...)['id']` is the
oracle value `newId`; `agent_engine.stream_query(...)` is an oracle yielding
either a transport exception or the list of events, each with
`event['content']['parts']`. -/

/-- One element of `event["content"]["parts"]`: `text` is `none` when the
fragment has no `"text"` key, in which case `part["text"]` raises `KeyError`. -/
structure AgentPart where
  text : Option String
deriving DecidableEq

/-- One event of the `stream_query` sequence. -/
structure AgentEvent where
  parts : List AgentPart
deriving DecidableEq

/-- The session get-or-create step of `query_agent` (main.py 131-136):
`if request.user_id not in user_sessions: user_sessions[user_id] =
create_session(...)["id"]`, then `session_id = user_sessions[user_id]`.
Returns the session id, the updated map, and whether `create_session` was
called. -/
def querySession (sessions : List (String × String)) (uid : String) (newId : String) :
    String × List (String × String) × Bool :=
  match sessions.lookup uid with
  | some sid => (sid, sessions, false)
  | none => (newId, sessions ++ [(uid, newId)], true)

/-- The inner loop body over one event's parts (main.py 145-146):
`responses.append(part["text"])`; a missing `"text"` key raises. -/
def partsTexts : List AgentPart → Except String (List String)
  | [] => .ok []
  | p :: ps =>
    match p.text with
    | none => .error "KeyError: text"
    | some t => (partsTexts ps).map (fun ts => t :: ts)

/-- The full fragment-collection loop of main.py 139-146, in arrival order. -/
def gatherTexts : List AgentEvent → Except String (List String)
  | [] => .ok []
  | ev :: evs =>
    match partsTexts ev.parts with
    | .error e => .error e
    | .ok ts =>
      match gatherTexts evs with
      | .error e => .error e
      | .ok rest => .ok (ts ++ rest)

/-- `combined_response = " ".join(responses)` (main.py 149). -/
def combined_response (events : List AgentEvent) : Except String String :=
  (gatherTexts events).map (String.intercalate " ")

/-- The `POST /query` endpoint `query_agent` (main.py 119-167), up to the
response fields the claims concern.  `engine_ok`/`engine_err` model
`get_agent_engine`; `events` models the `stream_query` outcome.  A raised
exception after session creation leaves the created session stored.  The
`send_to_justifyai` call (main.py 61-117) catches every exception and returns
a pass-through dictionary, so it cannot change the response text, session id,
map state, or status, and is omitted.  Returns
(`HTTPException`-or-(`response`, `session_id`), updated map, created flag). -/
def query_agent (engine_ok : Bool) (engine_err : String)
    (sessions : List (String × String)) (uid : String) (newId : String)
    (events : Except String (List AgentEvent)) :
    Except (Nat × String) (String × String) × List (String × String) × Bool :=
  if engine_ok then
    match querySession sessions uid newId with
    | (session_id, sessions2, created) =>
      match events with
      | .error e => (.error (500, "Query failed: " ++ e), sessions2, created)
      | .ok evs =>
        match combined_response evs with
        | .error e => (.error (500, "Query failed: " ++ e), sessions2, created)
        | .ok text => (.ok (text, session_id), sessions2, created)
  else
    (.error (503, "Agent engine not available: " ++ engine_err), sessions, false)

/-! ## Helper lemmas -/

/-! ### Duplicate removal -/

theorem uniqueFirstAux_nodup : ∀ (us acc : List String), acc.Nodup → (uniqueFirstAux acc us).Nodup
  | [], _, h => h
  | u :: us, acc, h => by
    by_cases hu : u ∈ acc
    · simpa [uniqueFirstAux, hu] using uniqueFirstAux_nodup us acc h
    · have hacc : (acc ++ [u]).Nodup :=
        h.append (List.nodup_singleton u)
          (by intro x hx hxu; simp at hxu; exact hu (hxu ▸ hx))
      simpa [uniqueFirstAux, hu] using uniqueFirstAux_nodup us (acc ++ [u]) hacc

theorem uniqueFirstAux_mem :
    ∀ (us acc : List String) (x : String), x ∈ uniqueFirstAux acc us ↔ x ∈ acc ∨ x ∈ us
  | [], acc, x => by simp [uniqueFirstAux]
  | u :: us, acc, x => by
    by_cases hu : u ∈ acc
    · rw [uniqueFirstAux, if_pos hu, uniqueFirstAux_mem us acc x]
      constructor
      · exact fun h => h.imp id (List.mem_cons_of_mem u)
      · exact fun h => h.elim Or.inl fun h2 =>
          (List.mem_cons.mp h2).elim (fun hx => Or.inl (hx ▸ hu)) Or.inr
    · rw [uniqueFirstAux, if_neg hu, uniqueFirstAux_mem us (acc ++ [u]) x]
      simp [List.mem_append, List.mem_cons, or_assoc]

theorem uniqueFirstAux_eq_append :
    ∀ (us acc : List String), ∃ l, uniqueFirstAux acc us = acc ++ l ∧ l.Sublist us
  | [], acc => ⟨[], by simp [uniqueFirstAux]⟩
  | u :: us, acc => by
    by_cases hu : u ∈ acc
    · obtain ⟨l, hl, hs⟩ := uniqueFirstAux_eq_append us acc
      exact ⟨l, by rw [uniqueFirstAux, if_pos hu]; exact hl, hs.cons u⟩
    · obtain ⟨l, hl, hs⟩ := uniqueFirstAux_eq_append us (acc ++ [u])
      refine ⟨u :: l, ?_, hs.cons₂ u⟩
      rw [uniqueFirstAux, if_neg hu, hl, List.append_assoc]
      rfl

/-- The duplicate-removal loop emits the kept elements in strictly increasing
order of their first occurrence in the processed list: the result is
`acc ++ l` where the indices `us.indexOf x` (the position of the FIRST
occurrence of `x` in `us`) are strictly increasing along `l`, and every
element of `l` is a fresh element of `us`. -/
theorem uniqueFirstAux_firstOccOrder :
    ∀ (us acc : List String),
      ∃ l, uniqueFirstAux acc us = acc ++ l ∧
        l.Pairwise (fun u v => us.indexOf u < us.indexOf v) ∧
        ∀ x ∈ l, x ∉ acc ∧ x ∈ us
  | [], acc => ⟨[], by simp [uniqueFirstAux], List.Pairwise.nil, by simp⟩
  | u :: us, acc => by
    by_cases hu : u ∈ acc
    · obtain ⟨l, hl, hp, hmem⟩ := uniqueFirstAux_firstOccOrder us acc
      refine ⟨l, ?_, ?_, ?_⟩
      · rw [uniqueFirstAux, if_pos hu]
        exact hl
      · refine hp.imp_of_mem ?_
        intro a b ha hb hab
        have hna : u ≠ a := fun h => (hmem a ha).1 (h ▸ hu)
        have hnb : u ≠ b := fun h => (hmem b hb).1 (h ▸ hu)
        rw [List.indexOf_cons_ne us hna, List.indexOf_cons_ne us hnb]
        omega
      · intro x hx
        exact ⟨(hmem x hx).1, List.mem_cons_of_mem u (hmem x hx).2⟩
    · obtain ⟨l, hl, hp, hmem⟩ := uniqueFirstAux_firstOccOrder us (acc ++ [u])
      refine ⟨u :: l, ?_, ?_, ?_⟩
      · rw [uniqueFirstAux, if_neg hu, hl, List.append_assoc]
        rfl
      · rw [List.pairwise_cons]
        constructor
        · intro b hb
          have hnb : u ≠ b := fun h =>
            (hmem b hb).1 (List.mem_append_right acc (by rw [h]; simp))
          rw [List.indexOf_cons_self, List.indexOf_cons_ne us hnb]
          omega
        · refine hp.imp_of_mem ?_
          intro a b ha hb hab
          have hna : u ≠ a := fun h =>
            (hmem a ha).1 (List.mem_append_right acc (by rw [h]; simp))
          have hnb : u ≠ b := fun h =>
            (hmem b hb).1 (List.mem_append_right acc (by rw [h]; simp))
          rw [List.indexOf_cons_ne us hna, List.indexOf_cons_ne us hnb]
          omega
      · intro x hx
        rcases List.mem_cons.mp hx with rfl | hx2
        · exact ⟨hu, List.mem_cons_self x us⟩
        · exact ⟨fun hxa => (hmem x hx2).1 (List.mem_append_left [u] hxa),
            List.mem_cons_of_mem u (hmem x hx2).2⟩

/-! ### The URL scanner -/

theorem dropLit_eq : ∀ (lit cs r : List Char), dropLit lit cs = some r → cs = lit ++ r
  | [], cs, r, h => by simpa [dropLit] using h
  | _ :: _, [], _, h => by simp [dropLit] at h
  | l :: ls, c :: cs, r, h => by
    rw [dropLit] at h
    by_cases hcl : c = l
    · rw [if_pos hcl] at h
      have := dropLit_eq ls cs r h
      simp [hcl, this]
    · rw [if_neg hcl] at h
      exact absurd h (by simp)

theorem finishUrl_eq {scheme rest : List Char} {u r : List Char}
    (h : finishUrl scheme rest = some (u, r)) :
    u = scheme ++ rest.takeWhile isUrlChar ∧ rest.takeWhile isUrlChar ≠ [] ∧
      r = rest.dropWhile isUrlChar := by
  by_cases hb : (rest.takeWhile isUrlChar).isEmpty
  · simp [finishUrl, hb] at h
  · simp only [finishUrl, hb, Bool.false_eq_true, if_false, Option.some.injEq, Prod.mk.injEq] at h
    exact ⟨h.1.symm, by simpa [List.isEmpty_iff] using hb, h.2.symm⟩

/-- The property a matched URL has: one of the two schemes followed by a
nonempty run of admissible characters. -/
def urlShapeChars (u : List Char) : Prop :=
  ∃ body : List Char,
    (u = httpSchemeChars ++ body ∨ u = httpsSchemeChars ++ body) ∧
    body ≠ [] ∧ ∀ c ∈ body, isUrlChar c = true

theorem matchUrlAt_spec {cs u r : List Char} (h : matchUrlAt cs = some (u, r)) :
    urlShapeChars u ∧ r.length < cs.length := by
  rw [matchUrlAt] at h
  rcases hh : dropLit httpsSchemeChars cs with _ | rest
  · rw [hh] at h
    rcases hh2 : dropLit httpSchemeChars cs with _ | rest
    · rw [hh2] at h; exact absurd h (by simp)
    · rw [hh2] at h
      obtain ⟨hu, hbody, hr⟩ := finishUrl_eq h
      refine ⟨⟨rest.takeWhile isUrlChar, Or.inl hu, hbody,
        fun c hc => List.mem_takeWhile_imp hc⟩, ?_⟩
      have hcs := dropLit_eq _ _ _ hh2
      have : r.length ≤ rest.length := hr ▸ (List.dropWhile_sublist isUrlChar).length_le
      have : r.length ≤ rest.length := this
      simp [hcs, httpSchemeChars]
      omega
  · rw [hh] at h
    obtain ⟨hu, hbody, hr⟩ := finishUrl_eq h
    refine ⟨⟨rest.takeWhile isUrlChar, Or.inr hu, hbody,
      fun c hc => List.mem_takeWhile_imp hc⟩, ?_⟩
    have hcs := dropLit_eq _ _ _ hh
    have : r.length ≤ rest.length := hr ▸ (List.dropWhile_sublist isUrlChar).length_le
    simp [hcs, httpsSchemeChars]
    omega

theorem findUrlsAux_shape :
    ∀ (fuel : Nat) (cs : List Char), ∀ u ∈ findUrlsAux fuel cs, urlShapeChars u := by
  intro fuel
  induction fuel with
  | zero => intro cs u h; simp [findUrlsAux] at h
  | succ f ih =>
    intro cs u h
    match cs with
    | [] => simp [findUrlsAux] at h
    | c :: cs' =>
      rw [findUrlsAux] at h
      rcases hm : matchUrlAt (c :: cs') with _ | ⟨url, rest⟩
      · rw [hm] at h
        exact ih cs' u h
      · rw [hm] at h
        rcases List.mem_cons.mp h with hu | hu
        · exact hu ▸ (matchUrlAt_spec hm).1
        · exact ih rest u hu

/-! ### Image generation -/

theorem b64encode_ne_nil : ∀ bytes : List Nat, bytes ≠ [] → b64encode bytes ≠ []
  | [], h => absurd rfl h
  | [_], _ => by simp [b64encode]
  | [_, _], _ => by simp [b64encode]
  | _ :: _ :: _ :: _, _ => by simp [b64encode]

/-- What a successful per-model attempt produces. -/
theorem attemptModel_success {pil_ok : List Nat → Bool}
    {gem : Nat → String → Except String (List GenPart)} {prompt : String}
    {now i modelIndex : Nat} {modelName : String} {d : ImageData}
    (hpil : ∀ b, pil_ok b = true → b ≠ [])
    (h : attemptModel pil_ok gem prompt now i modelIndex modelName = some d) :
    d.format = "png" ∧ d.base64_data ≠ "" ∧ d.error = none ∧
      d.model_used = some modelName ∧ d.prompt = prompt := by
  rw [attemptModel] at h
  rcases hg : gem i modelName with e | parts
  · rw [hg] at h; exact absurd h (by simp)
  · rw [hg] at h
    dsimp only at h
    rcases hf : findInlineData parts with _ | bytes
    · rw [hf] at h; exact absurd h (by simp)
    · rw [hf] at h
      dsimp only at h
      by_cases hp : pil_ok bytes = true
      · rw [if_pos hp] at h
        have hb : bytes ≠ [] := hpil bytes hp
        have hd := Option.some.inj h
        subst hd
        refine ⟨rfl, ?_, rfl, rfl, rfl⟩
        intro hmk
        have : b64encode bytes = [] := by
          have := congrArg String.data hmk
          simpa using this
        exact b64encode_ne_nil bytes hb this
      · rw [if_neg hp] at h; exact absurd h (by simp)

theorem tryModelsFrom_success {pil_ok : List Nat → Bool}
    {gem : Nat → String → Except String (List GenPart)} {prompt : String}
    {now i : Nat} {d : ImageData}
    (hpil : ∀ b, pil_ok b = true → b ≠ []) :
    ∀ (idx : Nat) (ms : List String),
      tryModelsFrom pil_ok gem prompt now i idx ms = some d →
      d.format = "png" ∧ d.base64_data ≠ "" ∧ d.error = none ∧ d.prompt = prompt := by
  intro idx ms
  induction ms generalizing idx with
  | nil => intro h; exact absurd h (by simp [tryModelsFrom])
  | cons m ms ih =>
    intro h
    rw [tryModelsFrom] at h
    rcases ha : attemptModel pil_ok gem prompt now i idx m with _ | d2
    · rw [ha] at h
      exact ih (idx + 1) h
    · rw [ha] at h
      have hd := Option.some.inj h
      subst hd
      obtain ⟨h1, h2, h3, _, h5⟩ := attemptModel_success hpil ha
      exact ⟨h1, h2, h3, h5⟩

/-- Each slot yields either a valid success artifact or the error artifact. -/
theorem generateSlot_spec {pil_ok : List Nat → Bool}
    {gem : Nat → String → Except String (List GenPart)} {prompt : String} {now i : Nat}
    (hpil : ∀ b, pil_ok b = true → b ≠ []) :
    (let d := generateSlot pil_ok gem prompt now i
     (d.format = "png" ∧ d.base64_data ≠ "" ∧ d.error = none ∧ d.prompt = prompt) ∨
       d = errorImageData prompt now i) := by
  rw [generateSlot]
  rcases ht : tryModelsFrom pil_ok gem prompt now i 0 FAST_IMAGE_MODELS with _ | d
  · exact Or.inr rfl
  · exact Or.inl (tryModelsFrom_success hpil 0 FAST_IMAGE_MODELS ht)

/-- Claim C1: For every image-generation request of count `n`, the returned artifact
list has length exactly `n`, and every element is either a success artifact
(format `"png"`, non-empty base64 payload, no error) or the well-formed error
artifact (format `"error"`, empty payload, error message and the tried model
list recorded); no slot is absent.  The hypothesis records that PIL's
`Image.open`/`save` only succeeds on non-empty byte strings. -/
theorem generate_image_fast_slots (pil_ok : List Nat → Bool)
    (gem : Nat → String → Except String (List GenPart)) (prompt : String) (now n : Nat)
    (hpil : ∀ b, pil_ok b = true → b ≠ []) :
    (generate_image_fast pil_ok gem prompt now n).length = n ∧
    ∀ d ∈ generate_image_fast pil_ok gem prompt now n,
      (d.format = "png" ∧ d.base64_data ≠ "" ∧ d.error = none) ∨
      (d.format = "error" ∧ d.base64_data = "" ∧
        d.error = some "All image generation models failed" ∧
        d.models_tried = some FAST_IMAGE_MODELS) := by
  constructor
  · simp [generate_image_fast]
  · intro d hd
    rw [generate_image_fast] at hd
    obtain ⟨i, _, rfl⟩ := List.mem_map.mp hd
    rcases @generateSlot_spec pil_ok gem prompt now i hpil with h | h
    · exact Or.inl ⟨h.1, h.2.1, h.2.2.1⟩
    · rw [h]
      exact Or.inr ⟨rfl, rfl, rfl, rfl⟩

theorem generate_image_fast_slots_witness :
    (generate_image_fast (fun b => !b.isEmpty)
        (fun _ _ => .ok [.inline_data [137, 80, 78, 71]]) "p" 7 2).length = 2 :=
  (generate_image_fast_slots _ _ _ _ _
    (fun b hb => by cases b <;> simp_all)).1

/-- Claim C2: For every input text, hyperlink extraction is pure and total, returns
a duplicate-free list that is an order-preserving subsequence of the regex
match list `re.findall(r'https?://[^\s\)]+', text)` containing exactly its
elements, listed in strictly increasing order of first occurrence in that
match list (the `Pairwise` conjunct over `indexOf`, which together with
`Nodup` and the membership equivalence determines the output uniquely as the
first-occurrence dedupe), and every element is an `http://` or `https://`
scheme followed by a nonempty run of characters that are neither whitespace
nor `)`.  On the spec's example it returns
`["https://a.com", "https://b.com"]`. -/
theorem extract_hyperlinks_spec :
    (∀ t : String,
      (extract_hyperlinks t).Nodup ∧
      (extract_hyperlinks t).Sublist (re_findall_urls t) ∧
      (∀ u, u ∈ extract_hyperlinks t ↔ u ∈ re_findall_urls t) ∧
      (extract_hyperlinks t).Pairwise
        (fun u v => (re_findall_urls t).indexOf u < (re_findall_urls t).indexOf v) ∧
      (∀ u ∈ extract_hyperlinks t, urlShapeChars u.toList)) ∧
    extract_hyperlinks "see https://a.com and https://b.com then https://a.com again" =
      ["https://a.com", "https://b.com"] := by
  constructor
  · intro t
    refine ⟨uniqueFirstAux_nodup _ [] List.nodup_nil, ?_, ?_, ?_, ?_⟩
    · obtain ⟨l, hl, hs⟩ := uniqueFirstAux_eq_append (re_findall_urls t) []
      rw [extract_hyperlinks, hl]
      simpa using hs
    · intro u
      rw [extract_hyperlinks, uniqueFirstAux_mem]
      simp
    · obtain ⟨l, hl, hp, _⟩ := uniqueFirstAux_firstOccOrder (re_findall_urls t) []
      rw [extract_hyperlinks, hl]
      simpa using hp
    · intro u hu
      have hmem : u ∈ re_findall_urls t := by
        rw [extract_hyperlinks, uniqueFirstAux_mem] at hu
        simpa using hu
      rw [re_findall_urls] at hmem
      obtain ⟨l, hls, rfl⟩ := List.mem_map.mp hmem
      exact findUrlsAux_shape _ _ l hls
  · decide

theorem extract_hyperlinks_spec_witness :
    urlShapeChars (String.toList "https://a.com") :=
  (extract_hyperlinks_spec.1 "see https://a.com and https://b.com then https://a.com again").2.2.2.2
    "https://a.com" (by decide)

/-- Claim C3 counterexample: the claimed retry-with-backoff behavior fails on the
code.  With a model call that fails with a transient 503 marker on its first
two calls and succeeds from the third on, the claim says the formatter returns
the successful result; `generate_formatted_content` returns the first error
unchanged, and its call counter shows exactly one call was made — so the
claimed outcome `.ok "formatted"` is decidably false here. -/
theorem generate_formatted_content_no_retry_counterexample :
    generate_formatted_content
        (fun k _ => if k < 2 then .error "503 Service Unavailable"
          else .ok [⟨⟨[⟨"formatted"⟩]⟩⟩])
        0 "content" "concise" = (.error "503 Service Unavailable", 1) ∧
    decide ((generate_formatted_content
        (fun k _ => if k < 2 then .error "503 Service Unavailable"
          else .ok [⟨⟨[⟨"formatted"⟩]⟩⟩])
        0 "content" "concise").1 = .ok "formatted") = false := by
  exact ⟨by decide, by decide⟩

/-- Claim C3, amended: for every content-formatting call, exactly one underlying
model call is performed (the call counter advances by one), and a failure of
that single call — transient or not — propagates immediately as the stage
failure with the same message; there is no retry and no backoff
(`MAX_RETRIES` and `RETRY_DELAY` are defined but never used). -/
theorem generate_formatted_content_single_call :
    (∀ (callModel : Nat → String → Except String (List Candidate)) (k : Nat) (c s : String),
      (generate_formatted_content callModel k c s).2 = k + 1) ∧
    (∀ (callModel : Nat → String → Except String (List Candidate)) (k : Nat) (c s e : String),
      callModel k (buildPrompt s c) = .error e →
      (generate_formatted_content callModel k c s).1 = .error e) := by
  constructor
  · intro cm k c s
    rfl
  · intro cm k c s e h
    simp [generate_formatted_content, h]

theorem generate_formatted_content_single_call_witness :
    (generate_formatted_content (fun _ _ => .error "boom") 0 "c" "concise").1 = .error "boom" :=
  generate_formatted_content_single_call.2 (fun _ _ => .error "boom") 0 "c" "concise" "boom" rfl

/-- Claim C4: if either content-formatting call fails, the whole request fails: the
pipeline result is the error record carrying the underlying message (and
nothing else — the error record has no content fields), its status is
`"error"`, and the `/process` endpoint turns it into
`HTTPException(500, message)`, so no partial concise or detailed content
reaches the caller. -/
theorem process_fmt_failure_aborts (callModel : Nat → String → Except String (List Candidate))
    (pil_ok : List Nat → Bool) (gem : Nat → String → Except String (List GenPart))
    (api : APIOutput) (gi : Bool) (now : Nat) (e : String)
    (h : firstFmtError callModel api.response = some e) :
    (process_api_output callModel pil_ok gem api gi now).1 =
      .failure (truncQuery api.response) api.session_id e now ∧
    ((process_api_output callModel pil_ok gem api gi now).1).status = "error" ∧
    process_endpoint callModel pil_ok gem ⟨api, gi⟩ now = .error (500, e) := by
  rw [firstFmtError] at h
  rcases h1 : (generate_formatted_content callModel 0 api.response "concise").1 with e1 | c
  · rw [h1] at h
    have he : e1 = e := by simpa using h
    subst he
    refine ⟨?_, ?_, ?_⟩
    · simp [process_api_output, h1]
    · simp [process_api_output, h1, ProcResult.status]
    · simp [process_endpoint, process_api_output, h1]
  · rw [h1] at h
    dsimp only at h
    rcases h2 : (generate_formatted_content callModel 1 api.response "detailed").1 with e2 | d
    · rw [h2] at h
      have he : e2 = e := by simpa using h
      subst he
      refine ⟨?_, ?_, ?_⟩
      · simp [process_api_output, h1, h2]
      · simp [process_api_output, h1, h2, ProcResult.status]
      · simp [process_endpoint, process_api_output, h1, h2]
    · rw [h2] at h
      exact absurd h (by simp)

theorem process_fmt_failure_aborts_witness :
    process_endpoint (fun _ _ => .error "fmt down") (fun _ => false) (fun _ _ => .error "img down")
        ⟨⟨"r", "s"⟩, true⟩ 0 = .error (500, "fmt down") :=
  (process_fmt_failure_aborts (fun _ _ => .error "fmt down") (fun _ => false)
    (fun _ _ => .error "img down") ⟨"r", "s"⟩ true 0 "fmt down" (by decide)).2.2

/-- Claim C9: the endpoint `/process-simple` is idempotent in everything but the timestamp: two
runs with identical input and the same (deterministic) backing formatter
produce identical formatted content (concise and detailed) and identical
proof, for both the success and the error outcome. -/
theorem process_simple_idempotent (callModel : Nat → String → Except String (List Candidate))
    (api : APIOutput) (t1 t2 : Nat) :
    (process_simple callModel api t1).map (fun r => (r.concise, r.detailed, r.proof)) =
      (process_simple callModel api t2).map (fun r => (r.concise, r.detailed, r.proof)) := by
  rcases h1 : (generate_formatted_content callModel 0 api.response "concise").1 with e | c
  · simp [process_simple, h1]
  · rcases h2 : (generate_formatted_content callModel 1 api.response "detailed").1 with e | d
    · simp [process_simple, h1, h2]
    · simp [process_simple, h1, h2, Except.map]

/-- Claim C10: with image generation requested, the pipeline requests exactly one
image slot — the artifact list is `generate_image_fast` at count 1 and has
length 1, a count the caller's request cannot change — and the image prompt is
built from exactly the first 100 characters of the input response, so any two
responses agreeing on those characters yield the same prompt. -/
theorem process_single_image_fixed_count (callModel : Nat → String → Except String (List Candidate))
    (pil_ok : List Nat → Bool) (gem : Nat → String → Except String (List GenPart))
    (now : Nat) (c d : String) (request : ProcessingRequest)
    (hgi : request.generate_image = true)
    (hc : (generate_formatted_content callModel 0 request.api_output.response "concise").1 = .ok c)
    (hd : (generate_formatted_content callModel 1 request.api_output.response "detailed").1 = .ok d) :
    ((process_api_output callModel pil_ok gem request.api_output
        request.generate_image now).1).images =
      generate_image_fast pil_ok gem (imagePromptOf request.api_output.response) now 1 ∧
    ((process_api_output callModel pil_ok gem request.api_output
        request.generate_image now).1).images.length = 1 ∧
    imagePromptOf request.api_output.response =
      "Create a visual representation of: " ++
        String.mk (request.api_output.response.toList.take 100) ++ "..." ∧
    (∀ r r' : String, r.toList.take 100 = r'.toList.take 100 →
      imagePromptOf r = imagePromptOf r') := by
  rw [hgi]
  refine ⟨?_, ?_, rfl, ?_⟩
  · simp [process_api_output, hc, hd, ProcResult.images]
  · simp [process_api_output, hc, hd, ProcResult.images, generate_image_fast]
  · intro r r' h
    simp only [String.toList] at h
    simp [imagePromptOf, String.toList, h]

theorem process_single_image_fixed_count_witness :
    ((process_api_output (fun _ _ => .ok [⟨⟨[⟨"ok"⟩]⟩⟩]) (fun _ => false)
        (fun _ _ => .error "img down") ⟨"r", "s"⟩ true 0).1).images.length = 1 :=
  (process_single_image_fixed_count (fun _ _ => .ok [⟨⟨[⟨"ok"⟩]⟩⟩]) (fun _ => false)
    (fun _ _ => .error "img down") 0 "ok" "ok" ⟨⟨"r", "s"⟩, true⟩ rfl (by decide) (by decide)).2.1

theorem attemptModel_congr {pil_ok : List Nat → Bool}
    {gem gem2 : Nat → String → Except String (List GenPart)} {prompt : String} {now i : Nat}
    (h : ∀ m, gem i m = gem2 i m) (idx : Nat) (m : String) :
    attemptModel pil_ok gem prompt now i idx m = attemptModel pil_ok gem2 prompt now i idx m := by
  rw [attemptModel, attemptModel, h m]

theorem tryModelsFrom_congr {pil_ok : List Nat → Bool}
    {gem gem2 : Nat → String → Except String (List GenPart)} {prompt : String} {now i : Nat}
    (h : ∀ m, gem i m = gem2 i m) :
    ∀ (idx : Nat) (ms : List String),
      tryModelsFrom pil_ok gem prompt now i idx ms = tryModelsFrom pil_ok gem2 prompt now i idx ms
  | _, [] => rfl
  | idx, m :: ms => by
    rw [tryModelsFrom, tryModelsFrom, attemptModel_congr h idx m,
      tryModelsFrom_congr h (idx + 1) ms]

theorem generateSlot_congr {pil_ok : List Nat → Bool}
    {gem gem2 : Nat → String → Except String (List GenPart)} {prompt : String} {now i : Nat}
    (h : ∀ m, gem i m = gem2 i m) :
    generateSlot pil_ok gem prompt now i = generateSlot pil_ok gem2 prompt now i := by
  rw [generateSlot, generateSlot, tryModelsFrom_congr h 0 FAST_IMAGE_MODELS]

/-- Claim C5: once both formatter calls succeed, the run completes with status
`"success"` whatever the image oracle does — no image failure ever aborts the
request; each slot of `generate_image_fast` is present and determined by the
oracle's behavior on that slot alone (so one slot's failure cannot affect the
others); and a slot whose every model attempt failed is recorded inline as the
`format = "error"` artifact. -/
theorem image_failure_isolation (callModel : Nat → String → Except String (List Candidate))
    (pil_ok : List Nat → Bool) (gem : Nat → String → Except String (List GenPart))
    (api : APIOutput) (now : Nat) (c d : String)
    (hc : (generate_formatted_content callModel 0 api.response "concise").1 = .ok c)
    (hd : (generate_formatted_content callModel 1 api.response "detailed").1 = .ok d) :
    ((process_api_output callModel pil_ok gem api true now).1).status = "success" ∧
    (process_api_output callModel pil_ok gem api true now).1 =
      .success (truncQuery api.response) api.session_id c d
        (generate_image_fast pil_ok gem (imagePromptOf api.response) now 1)
        (extract_hyperlinks api.response) now ∧
    (∀ (prompt : String) (n i : Nat), i < n →
      (generate_image_fast pil_ok gem prompt now n)[i]? =
        some (generateSlot pil_ok gem prompt now i)) ∧
    (∀ (gem2 : Nat → String → Except String (List GenPart)) (prompt : String) (i : Nat),
      (∀ m, gem i m = gem2 i m) →
      generateSlot pil_ok gem prompt now i = generateSlot pil_ok gem2 prompt now i) ∧
    (∀ (prompt : String) (i : Nat),
      tryModelsFrom pil_ok gem prompt now i 0 FAST_IMAGE_MODELS = none →
      generateSlot pil_ok gem prompt now i = errorImageData prompt now i ∧
      (errorImageData prompt now i).format = "error") := by
  refine ⟨?_, ?_, ?_, ?_, ?_⟩
  · simp [process_api_output, hc, hd, ProcResult.status]
  · simp [process_api_output, hc, hd]
  · intro prompt n i hi
    simp [generate_image_fast, List.getElem?_range hi]
  · intro gem2 prompt i h
    exact generateSlot_congr h
  · intro prompt i h
    rw [generateSlot, h]
    exact ⟨rfl, rfl⟩

theorem image_failure_isolation_witness :
    ((process_api_output (fun _ _ => .ok [⟨⟨[⟨"ok"⟩]⟩⟩]) (fun _ => false)
        (fun _ _ => .error "img down") ⟨"r", "s"⟩ true 0).1).status = "success" :=
  (image_failure_isolation (fun _ _ => .ok [⟨⟨[⟨"ok"⟩]⟩⟩]) (fun _ => false)
    (fun _ _ => .error "img down") ⟨"r", "s"⟩ 0 "ok" "ok" (by decide) (by decide)).1

/-- Claim C8: within one pipeline run, the call trace places every stage-1
event (hyperlink extraction and both formatter calls) strictly before the
image-generation step, in every branch: the image step is never started before
the formatted content has been produced. -/
theorem text_stage_precedes_image_stage (callModel : Nat → String → Except String (List Candidate))
    (pil_ok : List Nat → Bool) (gem : Nat → String → Except String (List GenPart))
    (api : APIOutput) (gi : Bool) (now : Nat) :
    ∀ (i j : Nat) (ev : Ev),
      ((process_api_output callModel pil_ok gem api gi now).2)[i]? = some ev →
      ev ≠ .imageStart →
      ((process_api_output callModel pil_ok gem api gi now).2)[j]? = some .imageStart →
      i < j := by
  intro i j ev hi hne hj
  rcases h1 : (generate_formatted_content callModel 0 api.response "concise").1 with e | c
  · have htr : (process_api_output callModel pil_ok gem api gi now).2 =
        [.links, .fmtCall "concise"] := by
      simp [process_api_output, h1]
    rw [htr] at hj
    have := List.getElem?_mem hj
    simp at this
  · rcases h2 : (generate_formatted_content callModel 1 api.response "detailed").1 with e | d
    · have htr : (process_api_output callModel pil_ok gem api gi now).2 =
          [.links, .fmtCall "concise", .fmtCall "detailed"] := by
        simp [process_api_output, h1, h2]
      rw [htr] at hj
      have := List.getElem?_mem hj
      simp at this
    · cases gi with
      | false =>
        have htr : (process_api_output callModel pil_ok gem api false now).2 =
            [.links, .fmtCall "concise", .fmtCall "detailed"] := by
          simp [process_api_output, h1, h2]
        rw [htr] at hj
        have := List.getElem?_mem hj
        simp at this
      | true =>
        have htr : (process_api_output callModel pil_ok gem api true now).2 =
            [.links, .fmtCall "concise", .fmtCall "detailed", .imageStart] := by
          simp [process_api_output, h1, h2]
        rw [htr] at hi hj
        have hi4 : i < 4 := by
          by_contra hc2
          rw [List.getElem?_eq_none (by simp; omega)] at hi
          cases hi
        have hj4 : j < 4 := by
          by_contra hc2
          rw [List.getElem?_eq_none (by simp; omega)] at hj
          cases hj
        interval_cases i <;> interval_cases j <;>
          first
          | omega
          | exact absurd hj (by decide)
          | (rw [hj] at hi; exact absurd (Option.some.inj hi).symm hne)

theorem text_stage_precedes_image_stage_witness :
    ((process_api_output (fun _ _ => .ok [⟨⟨[⟨"ok"⟩]⟩⟩]) (fun _ => false)
        (fun _ _ => .error "img down") ⟨"r", "s"⟩ true 0).2)[1]? = some (.fmtCall "concise") ∧
    ((process_api_output (fun _ _ => .ok [⟨⟨[⟨"ok"⟩]⟩⟩]) (fun _ => false)
        (fun _ _ => .error "img down") ⟨"r", "s"⟩ true 0).2)[3]? = some .imageStart ∧
    (1 : Nat) < 3 :=
  ⟨by decide, by decide,
    text_stage_precedes_image_stage (fun _ _ => .ok [⟨⟨[⟨"ok"⟩]⟩⟩]) (fun _ => false)
      (fun _ _ => .error "img down") ⟨"r", "s"⟩ true 0 1 3 (.fmtCall "concise")
      (by decide) (by decide) (by decide)⟩

/-! ### Session reuse -/

theorem lookup_append_single {st : List (String × String)} {uid n : String}
    (h : st.lookup uid = none) : (st ++ [(uid, n)]).lookup uid = some n := by
  induction st with
  | nil => simp [List.lookup_cons]
  | cons p st ih =>
    obtain ⟨k, v⟩ := p
    rw [List.lookup_cons] at h
    rw [List.cons_append, List.lookup_cons]
    cases hk : uid == k with
    | true =>
      rw [hk] at h
      simp at h
    | false =>
      rw [hk] at h
      dsimp only at h ⊢
      exact ih h

theorem querySession_lookup (st : List (String × String)) (uid n : String) :
    ((querySession st uid n).2.1).lookup uid = some (querySession st uid n).1 := by
  rw [querySession]
  rcases h : st.lookup uid with _ | s
  · dsimp only
    exact lookup_append_single h
  · dsimp only
    exact h

theorem querySession_stable {st : List (String × String)} {uid s : String}
    (h : st.lookup uid = some s) (n : String) : querySession st uid n = (s, st, false) := by
  simp [querySession, h]

/-- The components of a `/query` run when the engine is available: the map is
updated by the session step, and a successful response carries the session id
the session step returned. -/
theorem query_agent_state (err : String) (st : List (String × String)) (uid n : String)
    (e : Except String (List AgentEvent)) :
    (query_agent true err st uid n e).2.1 = (querySession st uid n).2.1 ∧
    (query_agent true err st uid n e).2.2 = (querySession st uid n).2.2 ∧
    (∀ t s, (query_agent true err st uid n e).1 = .ok (t, s) → s = (querySession st uid n).1) := by
  rcases hq : querySession st uid n with ⟨sid, st2, created⟩
  cases e with
  | error e2 => simp [query_agent, hq]
  | ok evs =>
    rcases hcr : combined_response evs with e2 | text
    · simp [query_agent, hq, hcr]
    · simp [query_agent, hq, hcr]

/-- Claim C6: the sessionId created on a userId's first query is stored and reused:
after any query for `uid`, the next query's session step returns the stored id
without calling `create_session` and leaves the map unchanged, so two
consecutive successful queries with the same userId return the same sessionId,
and the session-creating call happens at most once per userId (the code has no
reset endpoint, so the mapping is never dropped). -/
theorem session_reuse (st : List (String × String)) (uid n1 n2 err1 err2 : String)
    (e1 e2 : Except String (List AgentEvent)) :
    (querySession ((query_agent true err1 st uid n1 e1).2.1) uid n2 =
      ((querySession st uid n1).1, (query_agent true err1 st uid n1 e1).2.1, false)) ∧
    (∀ t1 s1 t2 s2,
      (query_agent true err1 st uid n1 e1).1 = .ok (t1, s1) →
      (query_agent true err2 ((query_agent true err1 st uid n1 e1).2.1) uid n2 e2).1 =
        .ok (t2, s2) →
      s2 = s1) ∧
    ((query_agent true err2 ((query_agent true err1 st uid n1 e1).2.1) uid n2 e2).2.1 =
      (query_agent true err1 st uid n1 e1).2.1) ∧
    ((query_agent true err2 ((query_agent true err1 st uid n1 e1).2.1) uid n2 e2).2.2 =
      false) := by
  obtain ⟨hst1, _, hok1⟩ := query_agent_state err1 st uid n1 e1
  have hl : ((query_agent true err1 st uid n1 e1).2.1).lookup uid =
      some (querySession st uid n1).1 := by
    rw [hst1]
    exact querySession_lookup st uid n1
  have hq2 : querySession ((query_agent true err1 st uid n1 e1).2.1) uid n2 =
      ((querySession st uid n1).1, (query_agent true err1 st uid n1 e1).2.1, false) :=
    querySession_stable hl n2
  obtain ⟨hst2, hcr2, hok2⟩ := query_agent_state err2
    ((query_agent true err1 st uid n1 e1).2.1) uid n2 e2
  refine ⟨hq2, ?_, ?_, ?_⟩
  · intro t1 s1 t2 s2 h1 h2
    rw [hok2 t2 s2 h2, hq2, hok1 t1 s1 h1]
  · rw [hst2, hq2]
  · rw [hcr2, hq2]

theorem session_reuse_witness :
    querySession ((query_agent true "" [] "u" "sid1" (Except.ok [])).2.1) "u" "sid2" =
      ((querySession [] "u" "sid1").1, (query_agent true "" [] "u" "sid1" (Except.ok [])).2.1,
        false) ∧
    ("sid1" : String) = "sid1" :=
  ⟨(session_reuse [] "u" "sid1" "sid2" "" "" (.ok []) (.ok [])).1,
   (session_reuse [] "u" "sid1" "sid2" "" "" (.ok []) (.ok [])).2.1 "" "sid1" "" "sid1"
     (by decide) (by decide)⟩

/-! ### Fragment aggregation -/

theorem partsTexts_all_some :
    ∀ (ps : List AgentPart), (∀ p ∈ ps, p.text ≠ none) →
      partsTexts ps = .ok (ps.filterMap AgentPart.text)
  | [], _ => rfl
  | p :: ps, h => by
    rcases hp : p.text with _ | t
    · exact absurd hp (h p (List.mem_cons_self p ps))
    · rw [partsTexts, hp]
      dsimp only
      rw [partsTexts_all_some ps (fun q hq => h q (List.mem_cons_of_mem p hq))]
      simp [List.filterMap_cons, hp, Except.map]

theorem partsTexts_missing :
    ∀ (ps : List AgentPart), (∃ p ∈ ps, p.text = none) → ∃ e, partsTexts ps = .error e
  | [], h => absurd h (by simp)
  | p :: ps, h => by
    rcases hp : p.text with _ | t
    · exact ⟨"KeyError: text", by rw [partsTexts, hp]⟩
    · obtain ⟨q, hq, hqt⟩ := h
      rcases List.mem_cons.mp hq with rfl | hq2
      · rw [hp] at hqt
        cases hqt
      · obtain ⟨e, he⟩ := partsTexts_missing ps ⟨q, hq2, hqt⟩
        refine ⟨e, ?_⟩
        rw [partsTexts, hp]
        dsimp only
        rw [he]
        rfl

theorem gatherTexts_all_some :
    ∀ (evs : List AgentEvent), (∀ ev ∈ evs, ∀ p ∈ ev.parts, p.text ≠ none) →
      gatherTexts evs = .ok ((evs.map (fun ev => ev.parts.filterMap AgentPart.text)).flatten)
  | [], _ => by simp [gatherTexts]
  | ev :: evs, h => by
    rw [gatherTexts, partsTexts_all_some ev.parts (h ev (List.mem_cons_self ev evs))]
    dsimp only
    rw [gatherTexts_all_some evs (fun e2 he p hp => h e2 (List.mem_cons_of_mem ev he) p hp)]
    simp

theorem gatherTexts_missing :
    ∀ (evs : List AgentEvent), (∃ ev ∈ evs, ∃ p ∈ ev.parts, p.text = none) →
      ∃ e, gatherTexts evs = .error e
  | [], h => absurd h (by simp)
  | ev :: evs, h => by
    rcases hpt : partsTexts ev.parts with e | ts
    · exact ⟨e, by rw [gatherTexts, hpt]⟩
    · obtain ⟨ev2, hev2, p, hp, hptext⟩ := h
      rcases List.mem_cons.mp hev2 with rfl | hev3
      · obtain ⟨e, he⟩ := partsTexts_missing ev2.parts ⟨p, hp, hptext⟩
        rw [hpt] at he
        cases he
      · obtain ⟨e, he⟩ := gatherTexts_missing evs ⟨ev2, hev3, p, hp, hptext⟩
        refine ⟨e, ?_⟩
        rw [gatherTexts, hpt]
        dsimp only
        rw [he]

theorem query_agent_ok_text {events : List AgentEvent} {text : String}
    (hcr : combined_response events = .ok text) (err : String)
    (st : List (String × String)) (uid n : String) :
    (query_agent true err st uid n (.ok events)).1 = .ok (text, (querySession st uid n).1) := by
  rcases hq : querySession st uid n with ⟨sid, st2, created⟩
  simp [query_agent, hq, hcr]

theorem query_agent_err_text {events : List AgentEvent} {e : String}
    (hcr : combined_response events = .error e) (err : String)
    (st : List (String × String)) (uid n : String) :
    (query_agent true err st uid n (.ok events)).1 = .error (500, "Query failed: " ++ e) := by
  rcases hq : querySession st uid n with ⟨sid, st2, created⟩
  simp [query_agent, hq, hcr]

/-- Claim C7: the reply text returned to the caller is the backend's text fragments
in arrival order joined by single spaces; a fragment missing its text field
makes the aggregation — and hence the whole `/query` request — fail with an
error rather than being silently skipped. -/
theorem agent_reply_concatenation (events : List AgentEvent) :
    ((∀ ev ∈ events, ∀ p ∈ ev.parts, p.text ≠ none) →
      combined_response events =
        .ok (String.intercalate " "
          ((events.map (fun ev => ev.parts.filterMap AgentPart.text)).flatten)) ∧
      (∀ (err : String) (st : List (String × String)) (uid n : String),
        (query_agent true err st uid n (.ok events)).1 =
          .ok (String.intercalate " "
            ((events.map (fun ev => ev.parts.filterMap AgentPart.text)).flatten),
            (querySession st uid n).1))) ∧
    ((∃ ev ∈ events, ∃ p ∈ ev.parts, p.text = none) →
      (∃ e, combined_response events = .error e) ∧
      (∀ (err : String) (st : List (String × String)) (uid n : String),
        ∃ e2, (query_agent true err st uid n (.ok events)).1 = .error (500, e2))) := by
  constructor
  · intro h
    have hcr : combined_response events =
        .ok (String.intercalate " "
          ((events.map (fun ev => ev.parts.filterMap AgentPart.text)).flatten)) := by
      rw [combined_response, gatherTexts_all_some events h]
      rfl
    exact ⟨hcr, fun err st uid n => query_agent_ok_text hcr err st uid n⟩
  · intro h
    obtain ⟨e, he⟩ := gatherTexts_missing events h
    have hcr : combined_response events = .error e := by
      rw [combined_response, he]
      rfl
    exact ⟨⟨e, hcr⟩, fun err st uid n =>
      ⟨"Query failed: " ++ e, query_agent_err_text hcr err st uid n⟩⟩

theorem agent_reply_concatenation_witness :
    combined_response [⟨[⟨some "hello"⟩, ⟨some "world"⟩]⟩] =
      .ok (String.intercalate " "
        (([(⟨[⟨some "hello"⟩, ⟨some "world"⟩]⟩ : AgentEvent)].map
          (fun ev => ev.parts.filterMap AgentPart.text)).flatten)) ∧
    ∃ e, combined_response [(⟨[⟨none⟩]⟩ : AgentEvent)] = .error e :=
  ⟨((agent_reply_concatenation [⟨[⟨some "hello"⟩, ⟨some "world"⟩]⟩]).1 (by decide)).1,
   ((agent_reply_concatenation [⟨[⟨none⟩]⟩]).2 (by decide)).1⟩

end JustifyAI
